import Mathlib

/-!
Shallow embedding of `src/main.py` (hienstorfer/mp3combiner).

The program discovers (left, right) audio file pairs by filename prefix or
suffix, preprocesses each file to a mono 44100 Hz temporary WAV, reconciles
the two stream lengths, interleaves them into a stereo segment and exports
it, cleaning up the temporary files in a `finally` block.

Audio data is manipulated through the pydub library; the pydub operations
the source uses (`len`, slicing, `AudioSegment.silent`, `+`,
`from_mono_audiosegments`, `split_to_mono`, `frame_count`,
`set_frame_rate`) are modelled here with exact natural/rational arithmetic
in place of pydub's binary floating point, following pydub 0.25.x
semantics: durations (`len`, slice indices, `silent`) are milliseconds,
millisecond positions convert to frame indices as `int(ms * rate / 1000)`,
and `len` rounds half to even exactly as Python's `round`.
-/

namespace MainPy

/-- Python exceptions that the program can raise, by class and payload. -/
inductive PyErr where
  | nameError (missing : String)
  | decodeError (path : String)
  | valueError (msg : String)
  | fileNotFoundError (folder : String)
  | osError (tempId : Nat)
  | encodeError (path : String)
deriving DecidableEq

/-- A filesystem path as produced by `os.path.join(folder, name)`: the
directory part and the base name.  `os.path.basename` of such a path is its
`base` component. -/
structure Path where
  dir : String
  base : String
deriving DecidableEq

/-- Python string slicing `s[:-n]`.  For `n = 0` Python evaluates
`s[:-0] = s[:0] = ""`; for `n > 0` it keeps the first `length - n`
characters (all of them dropped when `n ≥ length`). -/
def pyDropLast (n : Nat) (s : String) : String :=
  if n = 0 then "" else s.take (s.length - n)

/-- A decoded pydub `AudioSegment` restricted to one channel: its frame
rate and its samples (one integer per frame; the pipeline's segments are
mono until synthesis). -/
structure AudioSeg where
  rate : Nat
  data : List Int
deriving DecidableEq

/-- pydub `frame_count()`: number of sample frames of the segment. -/
def frameCount (a : AudioSeg) : Nat := a.data.length

/-- Python `round(num / den)` for nonnegative operands, `den > 0`: rounds
to the nearest integer, ties to the even neighbour (banker's rounding),
computed exactly on the rational `num / den`. -/
def pyRoundDiv (num den : Nat) : Nat :=
  let q := num / den
  let r := num % den
  if den < 2 * r then q + 1
  else if 2 * r < den then q
  else q + q % 2

/-- pydub `len(segment)`: `round(1000 * (frame_count() / frame_rate))`,
the duration in whole milliseconds. -/
def lenMs (a : AudioSeg) : Nat := pyRoundDiv (1000 * frameCount a) a.rate

/-- pydub `frame_count(ms=ms)` truncated with `int(...)` as done wherever
the library converts a millisecond position to a frame index:
`int(ms * (frame_rate / 1000.0))`. -/
def msToFrameIdx (ms rate : Nat) : Nat := ms * rate / 1000

/-- pydub `AudioSegment.silent(duration=d)`: `int(frame_rate * (d / 1000.0))`
frames of zero samples at the default generator frame rate of 11025 Hz. -/
def pySilent (d : Nat) : AudioSeg :=
  ⟨11025, List.replicate (11025 * d / 1000) 0⟩

/-- Frame-count behaviour of `audioop.ratecv` (used by pydub
`set_frame_rate`): converting `n` input frames produces
`(n - 1) * outRate / inRate + 1` output frames (`0` for empty input);
for the 11025 → 44100 conversion this is `4 * n - 3`, matching the
interpolating resampler.  The program only ever resamples generated
silence (when appending padding at 11025 Hz to 44100 Hz audio), so the
output samples are zeros. -/
def ratecvData (l : List Int) (inRate outRate : Nat) : List Int :=
  if l.length = 0 then [] else List.replicate ((l.length - 1) * outRate / inRate + 1) 0

/-- pydub `set_frame_rate`: identity at the same rate, otherwise resample
through `audioop.ratecv` (see `ratecvData`). -/
def setFrameRate (a : AudioSeg) (r : Nat) : AudioSeg :=
  if r = a.rate then a else ⟨r, ratecvData a.data a.rate r⟩

/-- pydub `seg1 + seg2` (`append` with `crossfade=0`): `AudioSegment._sync`
coerces both segments to the larger frame rate, then the raw sample data is
concatenated. -/
def pyAppend (a b : AudioSeg) : AudioSeg :=
  let r := max a.rate b.rate
  ⟨r, (setFrameRate a r).data ++ (setFrameRate b r).data⟩

/-- pydub `segment[:stop]` for a nonnegative `stop` (slice indices are
milliseconds): the stop position is clamped to `len(segment)`, converted to
a frame index, the data is cut there, and a chunk that came out shorter
than the requested duration is filled with silence at the segment's own
rate (`missing_frames`; the `TooManyMissingFrames` guard fires only above
two milliseconds of fill, which the clamp `e ≤ lenMs` makes unreachable
here, the shortfall being at most `rate / 2000 + 1` frames). -/
def pySliceTo (a : AudioSeg) (stop : Nat) : AudioSeg :=
  let e := min stop (lenMs a)
  let p := msToFrameIdx e a.rate
  let chunk := a.data.take p
  ⟨a.rate, chunk ++ List.replicate (p - chunk.length) 0⟩

/-- Lines 133–141 of `combine_stereo_files`: compare `len(left_audio)` and
`len(right_audio)` (milliseconds) and append generated silence to the
shorter one. -/
def reconcilePadded (l r : AudioSeg) : AudioSeg × AudioSeg :=
  let lenLeft := lenMs l
  let lenRight := lenMs r
  if lenLeft < lenRight then (pyAppend l (pySilent (lenRight - lenLeft)), r)
  else if lenRight < lenLeft then (l, pyAppend r (pySilent (lenLeft - lenRight)))
  else (l, r)

/-- Lines 133–156 of `combine_stereo_files`: the padding step followed by
`min_frames = min(int(frames_left), int(frames_right))` and the trim
`audio[:min_frames]` applied to both sides (a pydub slice, hence a
millisecond slice). -/
def reconcile (l r : AudioSeg) : AudioSeg × AudioSeg :=
  let p := reconcilePadded l r
  let minFrames := min (frameCount p.1) (frameCount p.2)
  (pySliceTo p.1 minFrames, pySliceTo p.2 minFrames)

/-- Interleaving of two equal-length mono sample lists: the stereo frame
sequence `l0, r0, l1, r1, ...` built by `from_mono_audiosegments` via
`data[0::2] = left` and `data[1::2] = right`. -/
def interleave : List Int → List Int → List Int
  | a :: as, b :: bs => a :: b :: interleave as bs
  | _, _ => []

/-- pydub `AudioSegment.from_mono_audiosegments(left, right)` for two mono
segments of one shared frame rate (the `_sync` step is the identity then,
which is the only case this program reaches): allocates `max` frame count
and assigns `data[0::2]` and `data[1::2]`; when the frame counts differ the
extended-slice assignment raises `ValueError`. -/
def from_mono_audiosegments (l r : AudioSeg) : Except PyErr AudioSeg :=
  if frameCount l = frameCount r then
    .ok ⟨l.rate, interleave l.data r.data⟩
  else
    .error (.valueError "attempt to assign array to extended slice of different size")

/-- Python extended slice `samples[0::2]`: every even-indexed sample. -/
def deinterleaveL : List Int → List Int
  | a :: _ :: rest => a :: deinterleaveL rest
  | [a] => [a]
  | [] => []

/-- Python extended slice `samples[1::2]`: every odd-indexed sample. -/
def deinterleaveR : List Int → List Int
  | _ :: b :: rest => b :: deinterleaveR rest
  | _ => []

/-- pydub `split_to_mono()` on a two-channel segment: channel 0 is
`samples[0::2]`, channel 1 is `samples[1::2]`, both at the segment's
rate. -/
def split_to_mono (a : AudioSeg) : AudioSeg × AudioSeg :=
  (⟨a.rate, deinterleaveL a.data⟩, ⟨a.rate, deinterleaveR a.data⟩)

/-- Python `f.startswith(p)`: the character sequence of `p` is a prefix
of the character sequence of `f`. -/
def pyStartsWith (f p : String) : Bool := p.data.isPrefixOf f.data

/-- Python `f.endswith(s)`: the character sequence of `s` is a suffix of
the character sequence of `f`. -/
def pyEndsWith (f s : String) : Bool := s.data.isSuffixOf f.data

/-- Key order of a Python dict built by a comprehension from the given
(key, value) insertion sequence: each key at its first insertion
position, once. -/
def pyDictKeys : List (String × String) → List String
  | [] => []
  | (k, _) :: rest => k :: (pyDictKeys rest).filter (fun x => x ≠ k)

/-- Value lookup in a Python dict built from the given insertion sequence:
the value of the last insertion with the key. -/
def dictLookup (kv : List (String × String)) (k : String) : Option String :=
  ((kv.filter (fun e => e.1 == k)).getLast?).map (fun e => e.2)

/-- Lines 44–71, `find_matching_prefix_pairs`: raise `FileNotFoundError`
when the folder does not exist; otherwise build the two dicts
`{f[len(p):]: f for f in files if f.startswith(p)}` and return one
`(join(folder, left_files[key]), join(folder, right_files[key]))` pair per
left-dict key that is also a right-dict key.  The folder's existence and
its `os.listdir` result are the function's filesystem view, passed in
explicitly. -/
def find_matching_prefix_pairs (folderExists : Bool) (folder : String)
    (files : List String) (prefix_left prefix_right : String) :
    Except PyErr (List (Path × Path)) :=
  if folderExists = false then
    .error (.fileNotFoundError folder)
  else
    let leftFiles := (files.filter (fun f => pyStartsWith f prefix_left)).map
      (fun f => (f.drop prefix_left.length, f))
    let rightFiles := (files.filter (fun f => pyStartsWith f prefix_right)).map
      (fun f => (f.drop prefix_right.length, f))
    .ok ((pyDictKeys leftFiles).filterMap (fun key =>
      match dictLookup rightFiles key, dictLookup leftFiles key with
      | some rf, some lf => some (⟨folder, lf⟩, ⟨folder, rf⟩)
      | _, _ => none))

/-- Lines 74–101, `find_matching_suffix_pairs`: the suffix counterpart,
with dict keys `f[:-len(s)]` for files `f.endswith(s)`. -/
def find_matching_suffix_pairs (folderExists : Bool) (folder : String)
    (files : List String) (suffix_left suffix_right : String) :
    Except PyErr (List (Path × Path)) :=
  if folderExists = false then
    .error (.fileNotFoundError folder)
  else
    let leftFiles := (files.filter (fun f => pyEndsWith f suffix_left)).map
      (fun f => (pyDropLast suffix_left.length f, f))
    let rightFiles := (files.filter (fun f => pyEndsWith f suffix_right)).map
      (fun f => (pyDropLast suffix_right.length f, f))
    .ok ((pyDictKeys leftFiles).filterMap (fun key =>
      match dictLookup rightFiles key, dictLookup leftFiles key with
      | some rf, some lf => some (⟨folder, lf⟩, ⟨folder, rf⟩)
      | _, _ => none))

/-- Lines 168–173 of `combine_stereo_files`: derive the output path of a
pair from the basename of its left file.  The number of characters
stripped comes from the module-level globals `prefix_left` / `suffix_left`
(passed here as `Option String`, `none` when the global is not defined,
in which case Python raises `NameError`), while the decoration prepended
or appended comes from the function's own `prefix` / `suffix` parameters
(`prefixArg` / `suffixArg`; `if prefix:` is Python truthiness, i.e.
non-emptiness). -/
def deriveOutputName (prefix_left suffix_left : Option String)
    (output_folder : String) (prefixArg suffixArg : String) (left_file : Path) :
    Except PyErr Path :=
  if prefixArg ≠ "" then
    match prefix_left with
    | none => .error (.nameError "prefix_left")
    | some pl =>
      .ok ⟨output_folder, prefixArg ++ suffixArg ++ left_file.base.drop pl.length⟩
  else
    match suffix_left with
    | none => .error (.nameError "suffix_left")
    | some sl =>
      .ok ⟨output_folder, pyDropLast sl.length left_file.base ++ suffixArg ++ ".mp3"⟩

/-- Line 198 of `__main__`: the `prefix` argument passed to
`combine_stereo_files` for prefix-based pairs. -/
def mainPrefixArg (prefix_left prefix_right : String) : String :=
  pyDropLast 1 prefix_left ++ "-" ++ pyDropLast 1 prefix_right ++ "-"

/-- Line 204 of `__main__`: the `suffix` argument passed to
`combine_stereo_files` for suffix-based pairs. -/
def mainSuffixArg (suffix_left suffix_right : String) : String :=
  "-" ++ pyDropLast 4 suffix_right ++ "-" ++ pyDropLast 4 suffix_left

/-- Outcome oracle for the audio stages of one pair, abstracting the audio
contents: whether `preprocess_audio_to_temp` succeeds on a source file
(decode failure happens before the temporary file is created), whether the
decode/reconcile/synthesize stages (lines 130–166) raise for the pair, and
whether the export (line 175) succeeds for an output path. -/
structure Env where
  decodeOk : String → Bool
  stagesErr : String → String → Option PyErr
  exportOk : Path → Bool

/-- Filesystem and logging state of a `combine_stereo_files` run.
Temporary files are identified by the fresh counter `nextTemp`, mirroring
`tempfile.NamedTemporaryFile`'s guaranteed-fresh names; `errorLog` is the
sequence of lines appended by `log_error`; `outputs` the exported files. -/
structure FS where
  nextTemp : Nat
  tempsOnDisk : List Nat
  errorLog : List String
  outputs : List Path
deriving DecidableEq

/-- The non-filesystem arguments and globals of a `combine_stereo_files`
call. -/
structure CombineArgs where
  prefix_left : Option String
  suffix_left : Option String
  output_folder : String
  prefixArg : String
  suffixArg : String

/-- Lines 125–176: the body of the per-pair `try`.  On success of every
stage the pair's two temporary files are created and recorded in the
shared `temp_files` list (line 128: recording happens only after both
preprocessing calls, so a left temporary whose pair's right-side
preprocessing fails is created but never recorded) and the export is
appended to `outputs`; otherwise the raised exception is returned. -/
def processPair (env : Env) (args : CombineArgs) (fs : FS) (tempFiles : List Nat)
    (pair : Path × Path) : FS × List Nat × Except PyErr Unit :=
  if env.decodeOk pair.1.base = false then
    (fs, tempFiles, .error (.decodeError pair.1.base))
  else
    let leftTemp := fs.nextTemp
    let fs1 : FS := { fs with nextTemp := fs.nextTemp + 1,
                              tempsOnDisk := fs.tempsOnDisk ++ [leftTemp] }
    if env.decodeOk pair.2.base = false then
      (fs1, tempFiles, .error (.decodeError pair.2.base))
    else
      let rightTemp := fs1.nextTemp
      let fs2 : FS := { fs1 with nextTemp := fs1.nextTemp + 1,
                                 tempsOnDisk := fs1.tempsOnDisk ++ [rightTemp] }
      let tempFiles2 := tempFiles ++ [leftTemp, rightTemp]
      match env.stagesErr pair.1.base pair.2.base with
      | some e => (fs2, tempFiles2, .error e)
      | none =>
        match deriveOutputName args.prefix_left args.suffix_left args.output_folder
            args.prefixArg args.suffixArg pair.1 with
        | .error e => (fs2, tempFiles2, .error e)
        | .ok out =>
          if env.exportOk out = false then
            (fs2, tempFiles2, .error (.encodeError out.base))
          else
            ({ fs2 with outputs := fs2.outputs ++ [out] }, tempFiles2, .ok ())

/-- Lines 124–180: the `for left_file, right_file in pairs` loop with its
`except Exception` handler.  The handler (line 179) evaluates the name
`error_message`, which is defined nowhere in the module, so the first
per-pair exception makes the handler itself raise
`NameError("error_message")` before anything is logged, aborting the loop.
The returned list of `FS` snapshots is verification instrumentation only:
the state as each pair's iteration completes (what "before the next pair
is attempted" observes); an aborted iteration records no snapshot. -/
def combineLoop (env : Env) (args : CombineArgs) :
    List (Path × Path) → FS → List Nat → FS × List Nat × Option PyErr × List FS
  | [], fs, tempFiles => (fs, tempFiles, none, [])
  | pair :: rest, fs, tempFiles =>
    let step := processPair env args fs tempFiles pair
    match step.2.2 with
    | .ok _ =>
      let next := combineLoop env args rest step.1 step.2.1
      (next.1, next.2.1, next.2.2.1, step.1 :: next.2.2.2)
    | .error _ => (step.1, step.2.1, some (.nameError "error_message"), [])

/-- Lines 181–183: the `finally` block, `os.remove` over the recorded
`temp_files` in order.  `os.remove` deletes the file or raises `OSError`
when it is absent, which stops the loop (the remaining files are not
deleted). -/
def removeAll : List Nat → List Nat → List Nat × Option PyErr
  | [], disk => (disk, none)
  | t :: ts, disk =>
    if t ∈ disk then removeAll ts (disk.erase t)
    else (disk, some (.osError t))

/-- Result of a `combine_stereo_files` call: final state, the exception
propagating out of the call if any (an exception raised in the `finally`
replaces the in-flight one), and the per-pair boundary snapshots. -/
structure CombineResult where
  fs : FS
  raised : Option PyErr
  pairBoundaries : List FS
deriving DecidableEq

/-- Lines 104–183, `combine_stereo_files`: run the pair loop, then the
`finally` cleanup of the shared `temp_files` list.  Output-folder creation
(lines 117–119) and console printing are omitted: they touch no state the
claims mention. -/
def combine_stereo_files (env : Env) (args : CombineArgs)
    (pairs : List (Path × Path)) (fs0 : FS) : CombineResult :=
  let run := combineLoop env args pairs fs0 []
  let cleanup := removeAll run.2.1 run.1.tempsOnDisk
  { fs := { run.1 with tempsOnDisk := cleanup.1 },
    raised := match cleanup.2 with
      | some e => some e
      | none => run.2.2.1,
    pairBoundaries := run.2.2.2 }

/-- The state before any pair is processed: fresh temp counter, nothing on
disk, empty log, no outputs. -/
def emptyFS : FS := ⟨0, [], [], []⟩

/-- Modelled from the spec: the Tempo Modifier stage (spec §4.2) is absent
from `src/main.py` (it belongs to the repository's other script variants,
not included here); per the spec it produces, for speed factor `s > 0`, a
stream whose duration is the original duration divided by `s` at the
unchanged frame rate, i.e. the nearest realizable frame count to
`frames / s`. -/
def tempoModifyFrames (frames : Nat) (s : ℚ) : ℤ := round ((frames : ℚ) / s)

/-! ### Helper lemmas -/

lemma string_length_eq_zero {s : String} (h : s.length = 0) : s = "" := by
  apply String.ext
  have hdata : s.data.length = 0 := h
  simpa using List.length_eq_zero.mp hdata

lemma string_take_append (a b : String) : (a ++ b).take a.length = a := by
  apply String.ext
  rw [String.data_take, String.data_append]
  have : a.length = a.data.length := rfl
  rw [this, List.take_left]

lemma pyDropLast_append_self (key sl : String) (hsl : sl ≠ "") :
    pyDropLast sl.length (key ++ sl) = key := by
  unfold pyDropLast
  rw [if_neg (fun h => hsl (string_length_eq_zero h))]
  rw [String.length_append, Nat.add_sub_cancel, string_take_append]

/-! ### Theorems for the claims -/

/-- C5: the pair-discovery functions raise `FileNotFoundError` exactly when
the source directory does not exist; on an existing directory they return
normally for every file listing, in particular the empty pair list for an
empty directory. -/
theorem find_pairs_error_iff_folder_missing :
    (∀ folder files pl pr, find_matching_prefix_pairs false folder files pl pr =
      .error (.fileNotFoundError folder)) ∧
    (∀ folder files sl sr, find_matching_suffix_pairs false folder files sl sr =
      .error (.fileNotFoundError folder)) ∧
    (∀ folder files pl pr, ∃ L, find_matching_prefix_pairs true folder files pl pr = .ok L) ∧
    (∀ folder files sl sr, ∃ L, find_matching_suffix_pairs true folder files sl sr = .ok L) ∧
    (∀ folder pl pr, find_matching_prefix_pairs true folder [] pl pr = .ok []) ∧
    (∀ folder sl sr, find_matching_suffix_pairs true folder [] sl sr = .ok []) := by
  refine ⟨fun _ _ _ _ => rfl, fun _ _ _ _ => rfl, ?_, ?_, ?_, ?_⟩
  · intro folder files pl pr
    exact ⟨_, rfl⟩
  · intro folder files sl sr
    exact ⟨_, rfl⟩
  · intro folder pl pr
    rfl
  · intro folder sl sr
    rfl

/-- C9: the tempo-modification stage (spec-modelled, absent from
`src/main.py`) sends `frames` to the nearest frame count to `frames / s`,
so the duration error is at most half a frame — hence at most one frame
per 10000 once the output is at least 5000 frames — and speed factor 1
leaves the frame count unchanged. -/
theorem tempo_duration_law (frames : Nat) (s : ℚ) (hs : 0 < s) :
    |((tempoModifyFrames frames s : ℚ)) - (frames : ℚ) / s| ≤ 1 / 2 ∧
    tempoModifyFrames frames 1 = frames ∧
    (5000 ≤ (frames : ℚ) / s →
      |((tempoModifyFrames frames s : ℚ)) - (frames : ℚ) / s| ≤ ((frames : ℚ) / s) / 10000) := by
  unfold tempoModifyFrames
  have h1 : |(((round ((frames : ℚ) / s) : ℤ)) : ℚ) - (frames : ℚ) / s| ≤ 1 / 2 := by
    rw [abs_sub_comm]
    exact abs_sub_round ((frames : ℚ) / s)
  refine ⟨h1, ?_, ?_⟩
  · simp
  · intro hbig
    have h2 : (1 : ℚ) / 2 ≤ ((frames : ℚ) / s) / 10000 := by linarith
    exact le_trans h1 h2

/-- Witness for `tempo_duration_law` at 10 frames and speed factor 2. -/
theorem tempo_duration_law_witness :
    (0 : ℚ) < 2 ∧
    (|((tempoModifyFrames 10 2 : ℚ)) - (10 : ℚ) / 2| ≤ 1 / 2 ∧
     tempoModifyFrames 10 1 = 10 ∧
     (5000 ≤ (10 : ℚ) / 2 →
       |((tempoModifyFrames 10 2 : ℚ)) - (10 : ℚ) / 2| ≤ ((10 : ℚ) / 2) / 10000)) :=
  ⟨by norm_num, by simpa using tempo_duration_law 10 2 (by norm_num)⟩

lemma deinterleaveL_interleave : ∀ (a b : List Int), a.length = b.length →
    deinterleaveL (interleave a b) = a
  | [], [], _ => rfl
  | x :: xs, y :: ys, h => by
    simp only [interleave, deinterleaveL]
    rw [deinterleaveL_interleave xs ys (by simpa using h)]
  | [], _ :: _, h => by simp at h
  | _ :: _, [], h => by simp at h

lemma deinterleaveR_interleave : ∀ (a b : List Int), a.length = b.length →
    deinterleaveR (interleave a b) = b
  | [], [], _ => rfl
  | x :: xs, y :: ys, h => by
    simp only [interleave, deinterleaveR]
    rw [deinterleaveR_interleave xs ys (by simpa using h)]
  | [], _ :: _, h => by simp at h
  | _ :: _, [], h => by simp at h

/-- C8: for two mono segments of one sample rate and one frame count,
`from_mono_audiosegments` succeeds and produces the interleaved
two-channel stream (channel 0 = left samples, channel 1 = right samples at
the shared rate), and `split_to_mono` de-interleaves it back to exactly
the two inputs. -/
theorem stereo_interleave_roundtrip (l r : AudioSeg) (hrate : l.rate = r.rate)
    (hlen : frameCount l = frameCount r) :
    ∃ s, from_mono_audiosegments l r = .ok s ∧
      s.rate = l.rate ∧ s.data = interleave l.data r.data ∧
      split_to_mono s = (l, r) := by
  refine ⟨⟨l.rate, interleave l.data r.data⟩, ?_, rfl, rfl, ?_⟩
  · simp [from_mono_audiosegments, hlen]
  · unfold split_to_mono
    obtain ⟨lr, ld⟩ := l
    obtain ⟨rr, rd⟩ := r
    simp only at hrate hlen ⊢
    rw [deinterleaveL_interleave ld rd hlen, deinterleaveR_interleave ld rd hlen, hrate]

/-- Witness for `stereo_interleave_roundtrip` on two concrete two-frame
segments. -/
theorem stereo_interleave_roundtrip_witness :
    (AudioSeg.mk 44100 [1, 2]).rate = (AudioSeg.mk 44100 [3, 4]).rate ∧
    frameCount ⟨44100, [1, 2]⟩ = frameCount ⟨44100, [3, 4]⟩ ∧
    ∃ s, from_mono_audiosegments ⟨44100, [1, 2]⟩ ⟨44100, [3, 4]⟩ = .ok s ∧
      s.rate = (AudioSeg.mk 44100 [1, 2]).rate ∧
      s.data = interleave [1, 2] [3, 4] ∧
      split_to_mono s = (⟨44100, [1, 2]⟩, ⟨44100, [3, 4]⟩) :=
  ⟨rfl, rfl, stereo_interleave_roundtrip ⟨44100, [1, 2]⟩ ⟨44100, [3, 4]⟩ rfl rfl⟩

/-- C6 counterexample: for shared key `greeting` and configured suffixes
`-ES.mp3` / `-FR.mp3`, the code (lines 172–173 with the `suffix` argument
built on line 204) exports `greeting--FR--ES.mp3`, not the
`greetingFR-ES.mp3` the claim's label rule predicts: `suffix[:-4]` removes
only the extension and keeps the leading separator, and the format string
inserts one more hyphen. -/
theorem suffix_output_name_cex :
    deriveOutputName none (some "-ES.mp3") "out" ""
        (mainSuffixArg "-ES.mp3" "-FR.mp3") ⟨"src", "greeting-ES.mp3"⟩ =
      .ok ⟨"out", "greeting--FR--ES.mp3"⟩ ∧
    "greeting--FR--ES.mp3" ≠ "greetingFR-ES" ++ ".mp3" := by
  constructor
  · rfl
  · decide

/-- C6 amended: for every suffix-mode pair with key `key` and non-empty
configured suffixes, the exported name is the key followed by a hyphen,
the right suffix with its last four characters (the `.mp3` extension)
removed but its leading separator retained, another hyphen, the left
suffix treated the same way, and the `.mp3` output extension. -/
theorem suffix_output_name_formula (gpl : Option String) (out key sl sr : String)
    (hsl : sl ≠ "") :
    deriveOutputName gpl (some sl) out "" (mainSuffixArg sl sr) ⟨"src", key ++ sl⟩ =
      .ok ⟨out, key ++ "-" ++ pyDropLast 4 sr ++ "-" ++ pyDropLast 4 sl ++ ".mp3"⟩ := by
  unfold deriveOutputName mainSuffixArg
  simp only [ne_eq, not_true_eq_false, if_false, reduceIte]
  rw [pyDropLast_append_self key sl hsl]
  congr 1
  simp [String.append_assoc]

/-- Witness for `suffix_output_name_formula` at the concrete example of
the claim. -/
theorem suffix_output_name_formula_witness :
    ("-ES.mp3" : String) ≠ "" ∧
    deriveOutputName none (some "-ES.mp3") "out" ""
        (mainSuffixArg "-ES.mp3" "-FR.mp3") ⟨"src", "greeting" ++ "-ES.mp3"⟩ =
      .ok ⟨"out", "greeting" ++ "-" ++ pyDropLast 4 "-FR.mp3" ++ "-" ++
            pyDropLast 4 "-ES.mp3" ++ ".mp3"⟩ :=
  ⟨by decide, suffix_output_name_formula none "out" "greeting" "-ES.mp3" "-FR.mp3" (by decide)⟩

/-- C10 counterexample: with both globals defined and all else equal, two
calls differing only in the function's own `prefix` argument produce
different output names, refuting the claim's final clause that with the
globals defined the output name does not depend on the function's
arguments. -/
theorem output_name_depends_on_arguments_cex :
    deriveOutputName (some "ES-") (some "-ES.mp3") "out" "ES-FR-" ""
        ⟨"src", "ES-greeting.mp3"⟩ = .ok ⟨"out", "ES-FR-greeting.mp3"⟩ ∧
    deriveOutputName (some "ES-") (some "-ES.mp3") "out" "X-" ""
        ⟨"src", "ES-greeting.mp3"⟩ = .ok ⟨"out", "X-greeting.mp3"⟩ ∧
    ("ES-FR-greeting.mp3" : String) ≠ "X-greeting.mp3" := by
  refine ⟨rfl, rfl, by decide⟩

/-- C10 amended: filename derivation strips by the module-level globals
`prefix_left` / `suffix_left` — raising `NameError` per pair when the
needed global is undefined, also from inside `combine_stereo_files` — and
with the globals defined the output name depends on both the global (the
stripped length) and the function's `prefix` / `suffix` arguments (the
decoration). -/
theorem output_name_globals_and_arguments (out pa sa : String) (f : Path)
    (hpa : pa ≠ "") :
    (∀ gsl, deriveOutputName none gsl out pa sa f = .error (.nameError "prefix_left")) ∧
    (∀ gpl, deriveOutputName gpl none out "" sa f = .error (.nameError "suffix_left")) ∧
    (∀ pl gsl, deriveOutputName (some pl) gsl out pa sa f =
      .ok ⟨out, pa ++ sa ++ f.base.drop pl.length⟩) ∧
    (∀ sl gpl, deriveOutputName gpl (some sl) out "" sa f =
      .ok ⟨out, pyDropLast sl.length f.base ++ sa ++ ".mp3"⟩) ∧
    (∀ env gsl pair, env.decodeOk (Prod.fst pair).base = true →
      env.decodeOk (Prod.snd pair).base = true →
      env.stagesErr (Prod.fst pair).base (Prod.snd pair).base = none →
      (processPair env ⟨none, gsl, out, pa, sa⟩ emptyFS [] pair).2.2 =
        .error (.nameError "prefix_left")) := by
  refine ⟨?_, ?_, ?_, ?_, ?_⟩
  · intro gsl
    simp [deriveOutputName, hpa]
  · intro gpl
    simp [deriveOutputName]
  · intro pl gsl
    simp [deriveOutputName, hpa]
  · intro sl gpl
    simp [deriveOutputName]
  · intro env gsl pair h1 h2 h3
    simp [processPair, h1, h2, h3, deriveOutputName, hpa]

/-- Witness for `output_name_globals_and_arguments` with the `__main__`
prefix argument. -/
theorem output_name_globals_and_arguments_witness :
    ("ES-FR-" : String) ≠ "" ∧
    (∀ gsl, deriveOutputName none gsl "out" "ES-FR-" "" ⟨"src", "ES-g.mp3"⟩ =
      .error (.nameError "prefix_left")) :=
  ⟨by decide,
   (output_name_globals_and_arguments "out" "ES-FR-" "" ⟨"src", "ES-g.mp3"⟩ (by decide)).1⟩

lemma data_length_pySliceTo (a : AudioSeg) (stop : Nat) :
    (pySliceTo a stop).data.length = msToFrameIdx (min stop (lenMs a)) a.rate := by
  simp only [pySliceTo, List.length_append, List.length_take, List.length_replicate]
  omega

lemma reconcilePadded_self (a : AudioSeg) : reconcilePadded a a = (a, a) := by
  simp [reconcilePadded]

lemma reconcile_length_44120 (a : AudioSeg) (har : a.rate = 44100)
    (hal : a.data.length = 44120) : frameCount (reconcile a a).1 = 44100 := by
  have f1 : lenMs a = 1000 := by
    simp only [lenMs, frameCount, hal, har]
    decide
  simp only [reconcile, reconcilePadded_self, frameCount]
  rw [data_length_pySliceTo]
  simp only [hal, f1, har]
  decide

/-- C7 counterexample: two identical 44120-frame streams at 44100 Hz are
not returned unchanged by the reconciliation step: their pydub length is
`round(1000 * 44120 / 44100) = 1000` milliseconds, and the final
`audio[:min_frames]` is a millisecond slice clamped to that length, which
cuts both streams to `1000 * 44100 / 1000 = 44100` frames. -/
theorem reconcile_not_identity_on_equal_cex :
    reconcile ⟨44100, List.replicate 44120 1⟩ ⟨44100, List.replicate 44120 1⟩ ≠
      (⟨44100, List.replicate 44120 1⟩, ⟨44100, List.replicate 44120 1⟩) := by
  intro h
  have h2 := reconcile_length_44120 ⟨44100, List.replicate 44120 1⟩ rfl
    (by simp only [List.length_replicate])
  rw [h] at h2
  simp only [frameCount, List.length_replicate] at h2
  exact absurd h2 (by decide)

/-- C7 amended: the reconciliation step returns two equal-frame-count
streams unchanged exactly under a whole-millisecond condition: when the
shared frame count is recovered by converting the pydub millisecond
length back to frames (`msToFrameIdx (lenMs a) rate = frameCount a`, e.g.
any multiple of 441 frames at 44100 Hz).  Otherwise both streams are
identically cut (or silence-filled) at the last whole-millisecond
boundary, as the counterexample shows. -/
theorem reconcile_identity_on_whole_ms (a b : AudioSeg) (hrate : a.rate = b.rate)
    (h1000 : 1000 ≤ a.rate) (hlen : frameCount a = frameCount b)
    (hms : msToFrameIdx (lenMs a) a.rate = frameCount a) :
    reconcile a b = (a, b) := by
  have hlb : lenMs b = lenMs a := by
    unfold lenMs
    rw [← hlen, ← hrate]
  have hpad : reconcilePadded a b = (a, b) := by
    simp only [reconcilePadded, hlb]
    simp
  have hLa : lenMs a ≤ frameCount a := by
    rw [← hms]
    unfold msToFrameIdx
    have h1 : lenMs a * 1000 ≤ lenMs a * a.rate := Nat.mul_le_mul_left _ h1000
    have h2 : lenMs a = lenMs a * 1000 / 1000 := by omega
    exact h2.trans_le (Nat.div_le_div_right h1)
  have hslice : ∀ c : AudioSeg, c.rate = a.rate → frameCount c = frameCount a →
      lenMs c = lenMs a → pySliceTo c (frameCount a) = c := by
    intro c hcr hcl hcm
    have hcl2 : c.data.length = frameCount a := hcl
    simp only [pySliceTo, hcm, hcr, Nat.min_eq_right hLa, hms]
    rw [← hcl2, List.take_length]
    simp only [Nat.sub_self, List.replicate_zero, List.append_nil]
    rw [← hcr]

  have hmin : min (frameCount a) (frameCount b) = frameCount a := by
    rw [← hlen, Nat.min_self]
  simp only [reconcile, hpad, hmin]
  rw [hslice a rfl rfl rfl, hslice b hrate.symm hlen.symm hlb]

/-- Witness for `reconcile_identity_on_whole_ms`: a 441-frame stream at
44100 Hz (exactly 10 ms) is returned unchanged. -/
theorem reconcile_identity_on_whole_ms_witness :
    (AudioSeg.mk 44100 (List.replicate 441 5)).rate =
      (AudioSeg.mk 44100 (List.replicate 441 5)).rate ∧
    1000 ≤ (AudioSeg.mk 44100 (List.replicate 441 5)).rate ∧
    msToFrameIdx (lenMs ⟨44100, List.replicate 441 5⟩) 44100 =
      frameCount ⟨44100, List.replicate 441 5⟩ ∧
    reconcile ⟨44100, List.replicate 441 5⟩ ⟨44100, List.replicate 441 5⟩ =
      (⟨44100, List.replicate 441 5⟩, ⟨44100, List.replicate 441 5⟩) :=
  ⟨rfl, by norm_num,
   by simp only [lenMs, frameCount, msToFrameIdx, List.length_replicate]; decide,
   reconcile_identity_on_whole_ms _ _ rfl (by norm_num) rfl
     (by simp only [lenMs, frameCount, msToFrameIdx, List.length_replicate]; decide)⟩

lemma reconcile_lengths_42359_44100 (a b : AudioSeg) (har : a.rate = 44100)
    (hbr : b.rate = 44100) (hal : a.data.length = 42359) (hbl : b.data.length = 44100) :
    frameCount (reconcile a b).1 = 44055 ∧ frameCount (reconcile a b).2 = 44100 := by
  have f1 : lenMs a = 961 := by
    simp only [lenMs, frameCount, hal, har]
    decide
  have f2 : lenMs b = 1000 := by
    simp only [lenMs, frameCount, hbl, hbr]
    decide
  have hpad : reconcilePadded a b = (pyAppend a (pySilent 39), b) := by
    simp only [reconcilePadded, f1, f2]
    norm_num
  have hmax : max (44100 : Nat) 11025 = 44100 := by decide
  have hA2 : (pyAppend a (pySilent 39)).rate = 44100 := by
    show max a.rate (11025 : Nat) = 44100
    rw [har, hmax]
  have hsfa : setFrameRate a (max a.rate (pySilent 39).rate) = a := by
    have : max a.rate (pySilent 39).rate = a.rate := by
      show max a.rate (11025 : Nat) = a.rate
      rw [har, hmax]
    rw [this]
    simp [setFrameRate]
  have hsil : pySilent 39 = ⟨11025, List.replicate 429 0⟩ := by
    show (⟨11025, List.replicate (11025 * 39 / 1000) (0 : Int)⟩ : AudioSeg) =
      ⟨11025, List.replicate 429 0⟩
    norm_num
  have hrcv : ratecvData (List.replicate 429 (0 : Int)) 11025 44100 = List.replicate 1713 0 := by
    unfold ratecvData
    rw [List.length_replicate, if_neg (by decide : ¬ (429 = 0))]
  have hsfs : (setFrameRate (pySilent 39) (max a.rate (pySilent 39).rate)).data.length = 1713 := by
    show (setFrameRate (pySilent 39) (max a.rate 11025)).data.length = 1713
    rw [har, hmax, hsil]
    have hsf : setFrameRate ⟨11025, List.replicate 429 (0 : Int)⟩ 44100 =
        ⟨44100, ratecvData (List.replicate 429 0) 11025 44100⟩ := by
      unfold setFrameRate
      rw [if_neg (by decide : ¬ ((44100 : Nat) = (11025 : Nat)))]
    rw [hsf, hrcv, List.length_replicate]
  have hA1 : (pyAppend a (pySilent 39)).data.length = 44072 := by
    show ((setFrameRate a (max a.rate (pySilent 39).rate)).data ++
      (setFrameRate (pySilent 39) (max a.rate (pySilent 39).rate)).data).length = 44072
    rw [List.length_append, hsfa, hsfs, hal]
  have f3 : lenMs (pyAppend a (pySilent 39)) = 999 := by
    simp only [lenMs, frameCount, hA1, hA2]
    decide
  constructor
  · simp only [reconcile, hpad, frameCount]
    rw [data_length_pySliceTo]
    simp only [hA1, hbl, f3, hA2]
    decide
  · simp only [reconcile, hpad, frameCount]
    rw [data_length_pySliceTo]
    simp only [hA1, hbl, f2, hbr]
    decide

/-- C3 counterexample: inputs of 42359 and 44100 frames at 44100 Hz leave
the reconciliation step with 44055 and 44100 frames respectively — the
outputs do not share a frame count.  The 39 ms deficit is padded with
`AudioSegment.silent(39)` generated at the 11025 Hz default and resampled,
yielding 1713 frames instead of the about 1720 needed, so the padded left
stream rounds to 999 ms while the right has 1000 ms, and the
millisecond-based trim then cuts the two sides at different frame
positions. -/
theorem reconcile_frame_counts_differ_cex :
    frameCount (reconcile ⟨44100, List.replicate 42359 0⟩
      ⟨44100, List.replicate 44100 0⟩).1 = 44055 ∧
    frameCount (reconcile ⟨44100, List.replicate 42359 0⟩
      ⟨44100, List.replicate 44100 0⟩).2 = 44100 ∧
    frameCount (reconcile ⟨44100, List.replicate 42359 0⟩
        ⟨44100, List.replicate 44100 0⟩).1 ≠
      frameCount (reconcile ⟨44100, List.replicate 42359 0⟩
        ⟨44100, List.replicate 44100 0⟩).2 := by
  obtain ⟨h1, h2⟩ := reconcile_lengths_42359_44100 ⟨44100, List.replicate 42359 0⟩
    ⟨44100, List.replicate 44100 0⟩ rfl rfl (by simp only [List.length_replicate])
    (by simp only [List.length_replicate])
  refine ⟨h1, h2, fun hc => ?_⟩
  rw [h1, h2] at hc
  exact absurd hc (by decide)

/-- C3 amended: after the padding step, the two sides of the trim receive
the same millisecond stop position, so whenever the padded streams agree
in pydub millisecond length (in particular whenever the inputs already
did, so that no padding runs) the two outputs have equal frame counts;
the claim's unconditional equality fails because millisecond-based
padding can leave the two sides with different millisecond lengths
(see the counterexample). -/
theorem reconcile_equal_ms_equal_frames (a b : AudioSeg) (hrate : a.rate = b.rate)
    (h11025 : 11025 ≤ a.rate)
    (hms : lenMs (reconcilePadded a b).1 = lenMs (reconcilePadded a b).2) :
    frameCount (reconcile a b).1 = frameCount (reconcile a b).2 := by
  have hr1 : (reconcilePadded a b).1.rate = a.rate := by
    simp only [reconcilePadded]
    split
    · show (pyAppend a (pySilent _)).rate = a.rate
      show max a.rate 11025 = a.rate
      exact Nat.max_eq_left h11025
    split
    · rfl
    · rfl
  have hr2 : (reconcilePadded a b).2.rate = a.rate := by
    simp only [reconcilePadded]
    split
    · exact hrate.symm
    split
    · show (pyAppend b (pySilent _)).rate = a.rate
      show max b.rate 11025 = a.rate
      rw [hrate] at h11025
      rw [Nat.max_eq_left h11025, hrate]
    · exact hrate.symm
  simp only [reconcile, frameCount]
  rw [data_length_pySliceTo, data_length_pySliceTo, hr1, hr2, hms]

/-- Witness for `reconcile_equal_ms_equal_frames`: 45- and 46-frame
streams at 44100 Hz (both one millisecond long, so no padding runs) end
with equal frame counts. -/
theorem reconcile_equal_ms_equal_frames_witness :
    (AudioSeg.mk 44100 (List.replicate 45 7)).rate =
      (AudioSeg.mk 44100 (List.replicate 46 9)).rate ∧
    11025 ≤ (AudioSeg.mk 44100 (List.replicate 45 7)).rate ∧
    lenMs (reconcilePadded ⟨44100, List.replicate 45 7⟩ ⟨44100, List.replicate 46 9⟩).1 =
      lenMs (reconcilePadded ⟨44100, List.replicate 45 7⟩ ⟨44100, List.replicate 46 9⟩).2 ∧
    frameCount (reconcile ⟨44100, List.replicate 45 7⟩ ⟨44100, List.replicate 46 9⟩).1 =
      frameCount (reconcile ⟨44100, List.replicate 45 7⟩ ⟨44100, List.replicate 46 9⟩).2 :=
  ⟨rfl, by norm_num, by decide,
   reconcile_equal_ms_equal_frames _ _ rfl (by norm_num) (by decide)⟩

/-- C2 counterexample: in an all-success two-pair batch, when the first
pair's processing finishes (before the second pair is attempted) its two
temporary files are still on disk, and when the second finishes all four
are; the shared `temp_files` list is emptied only by the `finally` block
after the whole batch. -/
theorem temps_persist_across_pairs_cex :
    ((combine_stereo_files ⟨fun _ => true, fun _ _ => none, fun _ => true⟩
      ⟨some "ES-", some "-ES.mp3", "out", "ES-FR-", ""⟩
      [(⟨"src", "ES-a.mp3"⟩, ⟨"src", "FR-a.mp3"⟩),
       (⟨"src", "ES-b.mp3"⟩, ⟨"src", "FR-b.mp3"⟩)] emptyFS).pairBoundaries.map
        (fun s => s.tempsOnDisk)) = [[0, 1], [0, 1, 2, 3]] ∧
    (combine_stereo_files ⟨fun _ => true, fun _ _ => none, fun _ => true⟩
      ⟨some "ES-", some "-ES.mp3", "out", "ES-FR-", ""⟩
      [(⟨"src", "ES-a.mp3"⟩, ⟨"src", "FR-a.mp3"⟩),
       (⟨"src", "ES-b.mp3"⟩, ⟨"src", "FR-b.mp3"⟩)] emptyFS).fs.tempsOnDisk = [] := by
  decide

lemma combineLoop_all_ok (env : Env) (args : CombineArgs)
    (hdec : ∀ s, env.decodeOk s = true)
    (hst : ∀ l r, env.stagesErr l r = none)
    (hexp : ∀ p, env.exportOk p = true)
    (hpa : args.prefixArg ≠ "") (pl : String) (hpl : args.prefix_left = some pl) :
    ∀ (pairs : List (Path × Path)) (fs : FS) (tf : List Nat), fs.tempsOnDisk = tf →
      (combineLoop env args pairs fs tf).1.tempsOnDisk = (combineLoop env args pairs fs tf).2.1 ∧
      (combineLoop env args pairs fs tf).2.2.1 = none := by
  intro pairs
  induction pairs with
  | nil => exact fun fs tf h => ⟨h, rfl⟩
  | cons pair rest ih =>
    intro fs tf h
    simp [combineLoop, processPair, hdec, hst, hexp, deriveOutputName, hpa, hpl]
    exact ih _ _ (by simp [h])

lemma removeAll_self : ∀ l : List Nat, removeAll l l = ([], none)
  | [] => rfl
  | t :: ts => by
    unfold removeAll
    rw [if_pos (List.mem_cons_self t ts), List.erase_cons_head]
    exact removeAll_self ts

/-- C2 amended: temporary files are not released per pair but only by the
`finally` block after the entire batch: an earlier pair's temporaries stay
on disk while later pairs run (counterexample), and in an all-success
batch the recorded list coincides with the files on disk, so the final
sweep deletes them all and nothing is raised.  (A deletion failure in that
sweep stops the remaining deletions, and a left temporary whose pair's
right-side preprocessing failed is never recorded at all.) -/
theorem temps_removed_only_at_batch_end (env : Env) (args : CombineArgs)
    (pairs : List (Path × Path))
    (hdec : ∀ s, env.decodeOk s = true)
    (hst : ∀ l r, env.stagesErr l r = none)
    (hexp : ∀ p, env.exportOk p = true)
    (hpa : args.prefixArg ≠ "")
    (hpl : ∃ pl, args.prefix_left = some pl) :
    (combine_stereo_files env args pairs emptyFS).fs.tempsOnDisk = [] ∧
    (combine_stereo_files env args pairs emptyFS).raised = none := by
  obtain ⟨pl, hpl⟩ := hpl
  have hloop := combineLoop_all_ok env args hdec hst hexp hpa pl hpl pairs emptyFS [] rfl
  simp only [combine_stereo_files]
  rw [hloop.1, removeAll_self]
  exact ⟨rfl, hloop.2⟩

/-- Witness for `temps_removed_only_at_batch_end` on a concrete
all-success one-pair batch. -/
theorem temps_removed_only_at_batch_end_witness :
    (∀ s, (Env.mk (fun _ => true) (fun _ _ => none) (fun _ => true)).decodeOk s = true) ∧
    (∀ l r, (Env.mk (fun _ => true) (fun _ _ => none) (fun _ => true)).stagesErr l r = none) ∧
    (∀ p, (Env.mk (fun _ => true) (fun _ _ => none) (fun _ => true)).exportOk p = true) ∧
    (CombineArgs.mk (some "ES-") (some "-ES.mp3") "out" "ES-FR-" "").prefixArg ≠ "" ∧
    (∃ pl, (CombineArgs.mk (some "ES-") (some "-ES.mp3") "out" "ES-FR-" "").prefix_left = some pl) ∧
    ((combine_stereo_files ⟨fun _ => true, fun _ _ => none, fun _ => true⟩
        ⟨some "ES-", some "-ES.mp3", "out", "ES-FR-", ""⟩
        [(⟨"src", "ES-a.mp3"⟩, ⟨"src", "FR-a.mp3"⟩)] emptyFS).fs.tempsOnDisk = [] ∧
     (combine_stereo_files ⟨fun _ => true, fun _ _ => none, fun _ => true⟩
        ⟨some "ES-", some "-ES.mp3", "out", "ES-FR-", ""⟩
        [(⟨"src", "ES-a.mp3"⟩, ⟨"src", "FR-a.mp3"⟩)] emptyFS).raised = none) :=
  ⟨fun _ => rfl, fun _ _ => rfl, fun _ => rfl, by decide, ⟨"ES-", rfl⟩,
   temps_removed_only_at_batch_end _ _ _ (fun _ => rfl) (fun _ _ => rfl) (fun _ => rfl)
     (by decide) ⟨"ES-", rfl⟩⟩

/-- C1 (code bug): in a two-pair batch whose first pair fails in a stage
(here a decode failure in the reconcile/synthesize span), the
`except` handler itself raises `NameError` — line 179 reads the undefined
name `error_message` — so nothing is logged, no pair completes, the second
pair is never attempted, and the exception escapes `combine_stereo_files`
instead of the batch continuing.  (The `finally` still removes the two
recorded temporaries.) -/
theorem combine_aborts_on_first_pair_failure :
    combine_stereo_files
      ⟨fun _ => true,
       fun l _ => if l = "ES-a.mp3" then some (.decodeError "ES-a.mp3") else none,
       fun _ => true⟩
      ⟨some "ES-", some "-ES.mp3", "out", "ES-FR-", ""⟩
      [(⟨"src", "ES-a.mp3"⟩, ⟨"src", "FR-a.mp3"⟩),
       (⟨"src", "ES-b.mp3"⟩, ⟨"src", "FR-b.mp3"⟩)]
      emptyFS =
    { fs := ⟨2, [], [], []⟩,
      raised := some (.nameError "error_message"),
      pairBoundaries := [] } := by
  decide

/-! ### Pairing correctness (C4) -/

lemma pyStartsWith_iff (f p : String) : pyStartsWith f p = true ↔ ∃ k, f = p ++ k := by
  unfold pyStartsWith
  rw [List.isPrefixOf_iff_prefix]
  constructor
  · rintro ⟨t, ht⟩
    refine ⟨⟨t⟩, String.ext ?_⟩
    rw [String.data_append]
    exact ht.symm
  · rintro ⟨k, hk⟩
    refine ⟨k.data, ?_⟩
    rw [hk, String.data_append]

lemma string_drop_append (p k : String) : (p ++ k).drop p.length = k := by
  apply String.ext
  rw [String.data_drop, String.data_append]
  exact List.drop_left p.data k.data

lemma string_append_cancel {p a b : String} (h : p ++ a = p ++ b) : a = b := by
  apply String.ext
  have hd := congrArg String.data h
  rw [String.data_append, String.data_append] at hd
  exact List.append_cancel_left hd

lemma string_append_comparable {p q a b : String} (h : p ++ a = q ++ b) :
    p.data <+: q.data ∨ q.data <+: p.data := by
  have h1 : p.data <+: (p ++ a).data := by
    rw [String.data_append]
    exact List.prefix_append _ _
  have h2 : q.data <+: (p ++ a).data := by
    rw [h, String.data_append]
    exact List.prefix_append _ _
  exact List.prefix_or_prefix_of_prefix h1 h2

lemma mem_pyDictKeys : ∀ (kv : List (String × String)) (x : String),
    x ∈ pyDictKeys kv ↔ x ∈ kv.map Prod.fst
  | [], x => by simp [pyDictKeys]
  | (k0, v0) :: rest, x => by
    by_cases hx : x = k0
    · simp [pyDictKeys, hx]
    · simp [pyDictKeys, hx, List.mem_filter, mem_pyDictKeys rest x]

lemma pyDictKeys_nodup : ∀ kv : List (String × String), (pyDictKeys kv).Nodup
  | [] => List.nodup_nil
  | (k0, v0) :: rest => by
    simp only [pyDictKeys]
    refine List.nodup_cons.mpr ⟨?_, ?_⟩
    · simp [List.mem_filter]
    · exact (pyDictKeys_nodup rest).filter _

lemma dictLookup_stripped (p : String) :
    ∀ (files : List String), files.Nodup → ∀ k : String,
      dictLookup ((files.filter (fun f => pyStartsWith f p)).map
        (fun f => (f.drop p.length, f))) k =
      if (p ++ k) ∈ files then some (p ++ k) else none := by
  intro files
  induction files with
  | nil =>
    intro _ k
    simp [dictLookup]
  | cons f rest ih =>
    intro hnd k
    obtain ⟨hf, hrest⟩ := List.nodup_cons.mp hnd
    by_cases hs : pyStartsWith f p = true
    · obtain ⟨kf, hkf⟩ := (pyStartsWith_iff f p).mp hs
      have hdrop : f.drop p.length = kf := by
        rw [hkf]
        exact string_drop_append p kf
      rw [List.filter_cons, if_pos hs, List.map_cons, hdrop]
      by_cases hk : kf = k
      · subst hk
        have hmem : (p ++ kf) ∈ f :: rest := by
          rw [← hkf]
          exact List.mem_cons_self f rest
        rw [if_pos hmem]
        have hnotin : (p ++ kf) ∉ rest := by
          rw [← hkf]
          exact hf
        have hrest2 := ih hrest kf
        rw [if_neg hnotin] at hrest2
        unfold dictLookup at hrest2 ⊢
        rw [List.filter_cons]
        simp only [beq_self_eq_true, if_true]
        rcases hh : ((rest.filter (fun f => pyStartsWith f p)).map
            (fun f => (f.drop p.length, f))).filter (fun e => e.1 == kf) with _ | ⟨e, t⟩
        · rw [hh]
          simp [hkf]
        · rw [hh] at hrest2
          rw [Option.map_eq_none'] at hrest2
          rw [List.getLast?_eq_none_iff] at hrest2
          exact absurd hrest2 (List.cons_ne_nil e t)
      · have hbeq : ((kf, f).1 == k) = false := by
          simp only [beq_eq_false_iff_ne, ne_eq]
          exact hk
        unfold dictLookup
        rw [List.filter_cons, hbeq]
        simp only [Bool.false_eq_true, if_false]
        have hih := ih hrest k
        unfold dictLookup at hih
        rw [hih]
        have hne : (p ++ k) ≠ f := by
          intro he
          rw [hkf] at he
          exact hk (string_append_cancel he).symm
        by_cases hm : (p ++ k) ∈ rest
        · rw [if_pos hm, if_pos (List.mem_cons_of_mem f hm)]
        · rw [if_neg hm, if_neg (by simp [List.mem_cons, hne, hm])]
    · rw [List.filter_cons, if_neg hs]
      have hne : (p ++ k) ≠ f := fun he => hs ((pyStartsWith_iff f p).mpr ⟨k, he.symm⟩)
      rw [ih hrest k]
      by_cases hm : (p ++ k) ∈ rest
      · rw [if_pos hm, if_pos (List.mem_cons_of_mem f hm)]
      · rw [if_neg hm, if_neg (by simp [List.mem_cons, hne, hm])]

lemma mem_stripped_keys (p : String) (files : List String) (k : String) :
    k ∈ ((files.filter (fun f => pyStartsWith f p)).map
      (fun f => (f.drop p.length, f))).map Prod.fst ↔ (p ++ k) ∈ files := by
  simp only [List.map_map, Function.comp, List.mem_map, List.mem_filter]
  constructor
  · rintro ⟨f, ⟨hfmem, hfs⟩, hdropk⟩
    obtain ⟨kf, hkf⟩ := (pyStartsWith_iff f p).mp hfs
    rw [hkf, string_drop_append] at hdropk
    rw [hdropk] at hkf
    rw [← hkf]
    exact hfmem
  · intro hmem
    exact ⟨p ++ k, ⟨hmem, (pyStartsWith_iff _ p).mpr ⟨k, rfl⟩⟩, string_drop_append p k⟩

/-- C4 counterexample: with overlapping prefixes `A` and `AA` on the
files `AAX`, `AAAX`, `AX`, the file `AAX` appears in two returned pairs —
as the left of the pair for key `AX` and as the right of the pair for key
`X` — refuting the claim that no file appears in more than one pair. -/
theorem prefix_pairs_file_in_two_pairs_cex :
    find_matching_prefix_pairs true "src" ["AAX", "AAAX", "AX"] "A" "AA" =
      .ok [(⟨"src", "AAX"⟩, ⟨"src", "AAAX"⟩), (⟨"src", "AX"⟩, ⟨"src", "AAX"⟩)] ∧
    ((⟨"src", "AAX"⟩, ⟨"src", "AAAX"⟩) : Path × Path).1 =
      ((⟨"src", "AX"⟩, ⟨"src", "AAX"⟩) : Path × Path).2 := by
  constructor
  · rfl
  · rfl

/-- C4 amended: prefix-mode pairing returns exactly one pair per key
present under both prefixes (and nothing else), and — provided neither
configured prefix is a prefix of the other unless they are equal — no
file appears in more than one returned pair.  The proviso is forced by
the counterexample, where one prefix extends the other. -/
theorem prefix_pairs_exact_and_disjoint (folder : String) (files : List String)
    (prefix_left prefix_right : String) (hnd : files.Nodup)
    (hcomp : (prefix_left.data <+: prefix_right.data ∨
      prefix_right.data <+: prefix_left.data) → prefix_left = prefix_right) :
    ∃ L, find_matching_prefix_pairs true folder files prefix_left prefix_right = .ok L ∧
      (∀ k, ((prefix_left ++ k) ∈ files ∧ (prefix_right ++ k) ∈ files) ↔
        (⟨folder, prefix_left ++ k⟩, ⟨folder, prefix_right ++ k⟩) ∈ L) ∧
      L.Nodup ∧
      L.Pairwise (fun x y => x.1 ≠ y.1 ∧ x.1 ≠ y.2 ∧ x.2 ≠ y.1 ∧ x.2 ≠ y.2) := by
  refine ⟨_, rfl, ?_⟩
  set keys := pyDictKeys ((files.filter (fun f => pyStartsWith f prefix_left)).map
    (fun f => (f.drop prefix_left.length, f))) with hkeys
  have hkeysmem : ∀ k, k ∈ keys ↔ (prefix_left ++ k) ∈ files := by
    intro k
    rw [hkeys, mem_pyDictKeys, mem_stripped_keys]
  have hg : (fun key => match
      dictLookup ((files.filter (fun f => pyStartsWith f prefix_right)).map
        (fun f => (f.drop prefix_right.length, f))) key,
      dictLookup ((files.filter (fun f => pyStartsWith f prefix_left)).map
        (fun f => (f.drop prefix_left.length, f))) key with
      | some rf, some lf => some ((⟨folder, lf⟩ : Path), (⟨folder, rf⟩ : Path))
      | _, _ => none) =
      (fun key => if (prefix_left ++ key) ∈ files ∧ (prefix_right ++ key) ∈ files
        then some ((⟨folder, prefix_left ++ key⟩ : Path), (⟨folder, prefix_right ++ key⟩ : Path))
        else none) := by
    funext key
    rw [dictLookup_stripped prefix_left files hnd key,
      dictLookup_stripped prefix_right files hnd key]
    by_cases h1 : (prefix_left ++ key) ∈ files <;>
      by_cases h2 : (prefix_right ++ key) ∈ files <;> simp [h1, h2]
  rw [hg]
  have hinj : ∀ (x y : String) (b : Path × Path),
      b ∈ (if (prefix_left ++ x) ∈ files ∧ (prefix_right ++ x) ∈ files
        then some ((⟨folder, prefix_left ++ x⟩ : Path), (⟨folder, prefix_right ++ x⟩ : Path))
        else none) →
      b ∈ (if (prefix_left ++ y) ∈ files ∧ (prefix_right ++ y) ∈ files
        then some ((⟨folder, prefix_left ++ y⟩ : Path), (⟨folder, prefix_right ++ y⟩ : Path))
        else none) → x = y := by
    intro x y b hbx hby
    by_cases hx : (prefix_left ++ x) ∈ files ∧ (prefix_right ++ x) ∈ files
    · rw [if_pos hx] at hbx
      by_cases hy : (prefix_left ++ y) ∈ files ∧ (prefix_right ++ y) ∈ files
      · rw [if_pos hy] at hby
        simp only [Option.mem_def, Option.some_inj] at hbx hby
        rw [← hbx] at hby
        have hba : prefix_left ++ y = prefix_left ++ x :=
          congrArg (fun q => (Prod.fst q).base) hby
        exact (string_append_cancel hba).symm
      · rw [if_neg hy] at hby
        simp at hby
    · rw [if_neg hx] at hbx
      simp at hbx
  refine ⟨?_, ?_, ?_⟩
  · intro k
    constructor
    · rintro ⟨h1, h2⟩
      refine List.mem_filterMap.mpr ⟨k, (hkeysmem k).mpr h1, ?_⟩
      rw [if_pos ⟨h1, h2⟩]
    · intro hmem
      obtain ⟨k2, hk2mem, hk2⟩ := List.mem_filterMap.mp hmem
      by_cases hcond : (prefix_left ++ k2) ∈ files ∧ (prefix_right ++ k2) ∈ files
      · rw [if_pos hcond] at hk2
        have hbase : prefix_left ++ k2 = prefix_left ++ k :=
          congrArg (fun q => (Prod.fst q).base) (Option.some_inj.mp hk2)
        have hkk : k2 = k := string_append_cancel hbase
        rw [hkk] at hcond
        exact hcond
      · rw [if_neg hcond] at hk2
        exact absurd hk2 (by simp)
  · exact List.Nodup.filterMap hinj (pyDictKeys_nodup _)
  · refine List.Pairwise.filterMap _ ?_ (pyDictKeys_nodup _)
    intro x y hxy b hb bq hbq
    by_cases hx : (prefix_left ++ x) ∈ files ∧ (prefix_right ++ x) ∈ files
    swap
    · rw [if_neg hx] at hb
      simp at hb
    by_cases hy : (prefix_left ++ y) ∈ files ∧ (prefix_right ++ y) ∈ files
    swap
    · rw [if_neg hy] at hbq
      simp at hbq
    rw [if_pos hx] at hb
    rw [if_pos hy] at hbq
    simp only [Option.mem_def, Option.some_inj] at hb hbq
    rw [← hb, ← hbq]
    have hll : prefix_left ++ x ≠ prefix_left ++ y :=
      fun he => hxy (string_append_cancel he)
    have hrr : prefix_right ++ x ≠ prefix_right ++ y :=
      fun he => hxy (string_append_cancel he)
    have hlr : prefix_left ++ x ≠ prefix_right ++ y := by
      intro he
      have heq := hcomp (string_append_comparable he)
      rw [heq] at he
      exact hxy (string_append_cancel he)
    have hrl : prefix_right ++ x ≠ prefix_left ++ y := by
      intro he
      have heq := hcomp (Or.symm (string_append_comparable he))
      rw [heq] at he
      exact hxy (string_append_cancel he)
    refine ⟨?_, ?_, ?_, ?_⟩ <;>
      simp only [ne_eq, Prod.mk.injEq, Path.mk.injEq, not_and] <;>
      intro _
    · exact hll
    · exact hlr
    · exact hrl
    · exact hrr

/-- Witness for `prefix_pairs_exact_and_disjoint` on the spec's concrete
example folder. -/
theorem prefix_pairs_exact_and_disjoint_witness :
    (["ES-greeting.mp3", "HR-greeting.mp3"] : List String).Nodup ∧
    (∃ L, find_matching_prefix_pairs true "src" ["ES-greeting.mp3", "HR-greeting.mp3"]
        "ES-" "HR-" = .ok L ∧
      (∀ k, (("ES-" ++ k) ∈ (["ES-greeting.mp3", "HR-greeting.mp3"] : List String) ∧
          ("HR-" ++ k) ∈ (["ES-greeting.mp3", "HR-greeting.mp3"] : List String)) ↔
        ((⟨"src", "ES-" ++ k⟩ : Path), (⟨"src", "HR-" ++ k⟩ : Path)) ∈ L) ∧
      L.Nodup ∧
      L.Pairwise (fun x y => x.1 ≠ y.1 ∧ x.1 ≠ y.2 ∧ x.2 ≠ y.1 ∧ x.2 ≠ y.2)) :=
  ⟨by decide,
   prefix_pairs_exact_and_disjoint "src" ["ES-greeting.mp3", "HR-greeting.mp3"]
     "ES-" "HR-" (by decide) (by decide)⟩

end MainPy

